import Mathlib

/-!
Verification of the dataLayer push interception extension.

Shallow embedding of the core of the repository:
  * page-script.js : stack-trace classifier (parseStackTrace), push wrapper
    (createPushInterceptor), pre-hook snapshot (capturePreHookEntries),
    wrapping (interceptArray), reassignment guard (setupInterception) and
    the late-creation poll (monitorLateInitialization);
  * the content-script message relay (setupMessageRelay);
  * the background service worker message fan-out
    (chrome.runtime.onMessage listener).

JavaScript machine integers and timestamps do not matter to the claims;
timestamps (Date.now()) are left out of the event records, noted below.
-/

set_option autoImplicit false

namespace Dld

/-! ## JSON values and page values

A JSON-safe structured value, the image of JSON.parse(JSON.stringify(v)).
-/

inductive Json where
  | null
  | jbool (b : Bool)
  | jnum (n : Int)
  | jstr (s : String)
  | jarr (items : List Json)
  | jobj (fields : List (String × Json))

/-- A page value passed to push or already stored in the collection.
`ser j` is a value whose JSON round trip succeeds and yields `j`;
`nonser r` is a value on which JSON.stringify throws and whose
String(v) representation is `r`. -/
inductive JVal where
  | ser (j : Json)
  | nonser (strRepr : String)

/-- The deep copy performed on every argument and pre-hook entry:
JSON.parse(JSON.stringify(arg)) inside try, with String(arg) as the
catch fallback (page-script.js lines 139-147 and 173-179). -/
def cloneJV : JVal → Json
  | .ser j => j
  | .nonser r => .jstr r

/-! ## Regex engine

page-script.js parses each stack line with two regexes:
  chrome :  at\s+(?:.*?\s+\()?(.+?):(\d+):(\d+)\)?$   (searched, unanchored)
  firefox:  ^.*?@(.+?):(\d+):(\d+)$                    (anchored)
We embed a small backtracking matcher with JavaScript priority order
(alternation left first, lazy star tries empty first, greedy star tries
the body first) and numbered capture groups, and transliterate the two
patterns into its syntax tree.
-/

inductive RE where
  | eps
  | lit (c : Char)
  | cls (p : Char → Bool)
  | cat (a b : RE)
  | starG (a : RE)
  | starL (a : RE)
  | optG (a : RE)
  | group (n : Nat) (a : RE)
  | eol

abbrev Caps := List (Nat × List Char)

/-- Backtracking matcher in continuation style.  Returns the first
success in JavaScript preference order.  `fuel` bounds the recursion;
it is chosen large enough for every concrete input used below. -/
def reMatch (fuel : Nat) (re : RE) (s : List Char) (caps : Caps)
    (k : List Char → Caps → Option Caps) : Option Caps :=
  match fuel with
  | 0 => none
  | f + 1 =>
    match re with
    | .eps => k s caps
    | .lit c =>
      match s with
      | [] => none
      | c1 :: rest => if c1 = c then k rest caps else none
    | .cls p =>
      match s with
      | [] => none
      | c1 :: rest => if p c1 then k rest caps else none
    | .cat a b => reMatch f a s caps (fun s1 caps1 => reMatch f b s1 caps1 k)
    | .starG a =>
      match reMatch f a s caps (fun s1 caps1 =>
          if s1.length < s.length then reMatch f (.starG a) s1 caps1 k else none) with
      | some r => some r
      | none => k s caps
    | .starL a =>
      match k s caps with
      | some r => some r
      | none => reMatch f a s caps (fun s1 caps1 =>
          if s1.length < s.length then reMatch f (.starL a) s1 caps1 k else none)
    | .optG a =>
      match reMatch f a s caps k with
      | some r => some r
      | none => k s caps
    | .group n a =>
      reMatch f a s caps (fun s1 caps1 =>
        k s1 ((n, s.take (s.length - s1.length)) :: caps1))
    | .eol =>
      match s with
      | [] => k s caps
      | _ :: _ => none

/-- Fuel bound: generous for the pattern sizes and line lengths involved. -/
def reFuel (s : List Char) : Nat := (s.length + 4) * (s.length + 4) * 16

/-- One match attempt anchored at the start of `s`. -/
def reMatchTop (re : RE) (s : List Char) : Option Caps :=
  reMatch (reFuel s) re s [] (fun _ caps => some caps)

/-- Unanchored search: leftmost match, as String.prototype.match. -/
def reSearch (re : RE) : List Char → Option Caps
  | [] => reMatchTop re []
  | c :: rest =>
    match reMatchTop re (c :: rest) with
    | some caps => some caps
    | none => reSearch re rest

/-- X+ greedy. -/
def plusG (a : RE) : RE := .cat a (.starG a)

/-- X+? lazy (prefers the fewest repetitions, at least one). -/
def plusL (a : RE) : RE := .cat a (.starL a)

/-- JavaScript \s (main ASCII whitespace, NBSP and BOM). -/
def wsChar (c : Char) : Bool :=
  c = ' ' || c = '\t' || c = '\n' || c = '\r' ||
  c.toNat = 11 || c.toNat = 12 || c.toNat = 160 || c.toNat = 65279

/-- JavaScript \d. -/
def digitChar (c : Char) : Bool := 48 ≤ c.toNat && c.toNat ≤ 57

/-- JavaScript . (anything but a line terminator). -/
def dotChar (c : Char) : Bool :=
  !(c = '\n' || c = '\r' || c.toNat = 8232 || c.toNat = 8233)

/-- Chrome/Edge frame layout: at\s+(?:.*?\s+\()?(.+?):(\d+):(\d+)\)?$ -/
def chromeRE : RE :=
  .cat (.lit 'a') (.cat (.lit 't') (.cat (plusG (.cls wsChar))
    (.cat (.optG (.cat (.starL (.cls dotChar)) (.cat (plusG (.cls wsChar)) (.lit '('))))
      (.cat (.group 1 (plusL (.cls dotChar)))
        (.cat (.lit ':') (.cat (.group 2 (plusG (.cls digitChar)))
          (.cat (.lit ':') (.cat (.group 3 (plusG (.cls digitChar)))
            (.cat (.optG (.lit ')')) .eol)))))))))

/-- Firefox frame layout: ^.*?@(.+?):(\d+):(\d+)$ -/
def firefoxRE : RE :=
  .cat (.starL (.cls dotChar)) (.cat (.lit '@')
    (.cat (.group 1 (plusL (.cls dotChar)))
      (.cat (.lit ':') (.cat (.group 2 (plusG (.cls digitChar)))
        (.cat (.lit ':') (.cat (.group 3 (plusG (.cls digitChar))) .eol))))))

/-- Find the final value of a numbered capture group. -/
def capLookup (n : Nat) : Caps → Option (List Char)
  | [] => none
  | (m, s) :: rest => if m = n then some s else capLookup n rest

/-- parseInt(digits, 10) on the digit-only strings produced by \d+. -/
def digitsToNat (cs : List Char) : Nat :=
  cs.foldl (fun acc c => acc * 10 + (c.toNat - 48)) 0

/-- Extract (file, line, column) from the three capture groups. -/
def frameCapsToResult (caps : Caps) : Option (String × Nat × Nat) :=
  match capLookup 1 caps, capLookup 2 caps, capLookup 3 caps with
  | some f, some l, some c => some (String.mk f, digitsToNat l, digitsToNat c)
  | _, _, _ => none

/-- line.match(chromeRegex): unanchored leftmost search. -/
def chromeFrameMatch (line : String) : Option (String × Nat × Nat) :=
  match reSearch chromeRE line.toList with
  | some caps => frameCapsToResult caps
  | none => none

/-- line.match(firefoxRegex): the pattern is ^-anchored. -/
def firefoxFrameMatch (line : String) : Option (String × Nat × Nat) :=
  match reMatchTop firefoxRE line.toList with
  | some caps => frameCapsToResult caps
  | none => none

/-- const match = chromeMatch || firefoxMatch (page-script.js lines 51-54). -/
def matchFrameLine (line : String) : Option (String × Nat × Nat) :=
  match chromeFrameMatch line with
  | some r => some r
  | none => firefoxFrameMatch line

/-! ## Stack-trace classifier: parseStackTrace (page-script.js lines 34-120) -/

/-- One parsed frame of the loop body (page-script.js lines 61-67);
fullStack is carried by the surrounding function, not per frame. -/
structure FrameInfo where
  file : String
  line : Nat
  column : Nat
  stackLineIndex : Nat
  deriving DecidableEq

/-- The record returned by parseStackTrace (page-script.js lines 96-119). -/
structure StackInfo where
  file : String
  line : Nat
  column : Nat
  stackLineIndex : Nat
  fullStack : String
  hasExtensionFrames : Bool
  immediateCaller : Option (String × Nat × Nat)
  deriving DecidableEq

/-- String.prototype.split with separator newline. -/
def splitLinesAux : List Char → List Char → List (List Char)
  | [], acc => [acc.reverse]
  | c :: rest, acc =>
    if c = '\n' then acc.reverse :: splitLinesAux rest []
    else splitLinesAux rest (c :: acc)

/-- stack.split of a newline (page-script.js line 37). -/
def stackLines (stack : String) : List String :=
  (splitLinesAux stack.toList []).map fun cs => String.mk cs

/-- The (index, line) pairs actually scanned: the loop starts at i = 2
(page-script.js line 46). -/
def stackFrames (stack : String) : List (Nat × String) :=
  (stackLines stack).enum.drop 2

def listStartsWith : List Char → List Char → Bool
  | _, [] => true
  | [], _ :: _ => false
  | c :: cs, p :: ps => c = p && listStartsWith cs ps

/-- fileUrl.startsWith of one of the three extension URL schemes
(page-script.js lines 76-78). -/
def isExtensionUrl (file : String) : Bool :=
  listStartsWith file.toList "chrome-extension://".toList ||
  listStartsWith file.toList "moz-extension://".toList ||
  listStartsWith file.toList "webkit-extension://".toList

/-- Parse one scanned line into a frame record. -/
def frameOfLine (i : Nat) (l : String) : Option FrameInfo :=
  (matchFrameLine l).map fun r => ⟨r.1, r.2.1, r.2.2, i⟩

/-- First-match-wins option choice (the JavaScript a || b on objects). -/
def orElseO {α : Type} (a b : Option α) : Option α :=
  match a with
  | some x => some x
  | none => b

/-- The scanning loop of parseStackTrace (page-script.js lines 46-90):
accumulates the immediate caller (first parseable frame) and the
hasExtensionFrames flag, and stops at the first non-extension frame,
which becomes the page caller.  Returns
(immediateCallerInfo, pageCallerInfo, hasExtensionFrames). -/
def scanFrames : List (Nat × String) → Option FrameInfo → Bool →
    Option FrameInfo × Option FrameInfo × Bool
  | [], imm, hasExt => (imm, none, hasExt)
  | (i, l) :: rest, imm, hasExt =>
    match frameOfLine i l with
    | none => scanFrames rest imm hasExt
    | some fr =>
      if isExtensionUrl fr.file then
        scanFrames rest (orElseO imm (some fr)) (hasExt || isExtensionUrl fr.file)
      else (orElseO imm (some fr), some fr, hasExt || isExtensionUrl fr.file)

/-- parseStackTrace (page-script.js lines 34-120).  A falsy (empty)
input returns null.  Otherwise the caller record is pageCaller ||
immediateCaller; with no parseable frame the "unknown" sentinel with
the original text is returned, with hasExtensionFrames literally false
as in the source.  immediateCaller is reported when the immediate
caller object is not the page caller object; with the per-frame line
index in the record, object identity coincides with value equality. -/
def parseStackTrace (stack : String) : Option StackInfo :=
  if stack = "" then none
  else
    match scanFrames (stackFrames stack) none false with
    | (imm, page, hasExt) =>
      match orElseO page imm with
      | none => some ⟨"unknown", 0, 0, 2, stack, false, none⟩
      | some caller =>
        some ⟨caller.file, caller.line, caller.column, caller.stackLineIndex,
              stack, hasExt,
              if imm = page then none
              else imm.map fun fr => (fr.file, fr.line, fr.column)⟩

/-- First parseable frame among the scanned lines (the immediate caller). -/
def firstParseableFrame : List (Nat × String) → Option FrameInfo
  | [] => none
  | (i, l) :: rest =>
    match frameOfLine i l with
    | some fr => some fr
    | none => firstParseableFrame rest

/-- First parseable non-extension frame among the scanned lines
(the page caller; the loop never scans past it). -/
def firstOrdinaryFrame : List (Nat × String) → Option FrameInfo
  | [] => none
  | (i, l) :: rest =>
    match frameOfLine i l with
    | some fr => if isExtensionUrl fr.file then firstOrdinaryFrame rest else some fr
    | none => firstOrdinaryFrame rest

/-! ## The push wrapper: createPushInterceptor (page-script.js lines 125-158) -/

/-- The DATALAYER_PUSH_INTERCEPTED payload (page-script.js lines 134-150);
the Date.now() timestamp is environmental and left out. -/
structure PushEvent where
  objectName : String
  arguments : List Json
  stackTrace : Option StackInfo

/-- stack.replace of the leading Error header line (page-script.js line 130). -/
def cleanStack (s : String) : String :=
  if listStartsWith s.toList "Error\n".toList then String.mk (s.toList.drop 6) else s

/-- Build the intercepted-push payload: classify the captured stack and
deep-copy every argument (with the per-argument string fallback). -/
def mkPushPayload (objectName stackText : String) (args : List JVal) : PushEvent :=
  ⟨objectName, args.map cloneJV, parseStackTrace (cleanStack stackText)⟩

/-- The original Array.prototype.push captured at wrap time: appends the
arguments and returns the new length. -/
def arrayPushOrig (st : List JVal) (args : List JVal) : List JVal × Nat :=
  (st ++ args, st.length + args.length)

/-- One invocation of the wrapper returned by createPushInterceptor, in
an environment where emission does not throw: builds and emits the
payload, then calls the original push and returns its result. -/
def interceptorCall (objectName stackText : String) (st args : List JVal) :
    (List JVal × Nat) × PushEvent :=
  (arrayPushOrig st args, mkPushPayload objectName stackText args)

/-- One invocation of the wrapper with the emission effect made explicit:
window.postMessage is an external call and the wrapper body contains no
try/catch around it, so an exception raised by emission propagates and
the original push is never reached (page-script.js lines 126-157). -/
def interceptorCallE (emit : PushEvent → Except String Unit)
    (objectName stackText : String) (st args : List JVal) :
    Except String (List JVal × Nat) :=
  match emit (mkPushPayload objectName stackText args) with
  | .ok _ => .ok (arrayPushOrig st args)
  | .error e => .error e

/-- Replay a sequence of calls through the wrapped push.  Each call
carries the stack text captured at that call.  Returns the final
entries, the values returned to the callers, and the emitted events. -/
def runWrapped (objectName : String) (st : List JVal) :
    List (String × List JVal) → List JVal × List Nat × List PushEvent
  | [] => (st, [], [])
  | (stackText, args) :: rest =>
    match interceptorCall objectName stackText st args with
    | ((st1, ret), ev) =>
      match runWrapped objectName st1 rest with
      | (fin, rets, evs) => (fin, ret :: rets, ev :: evs)

/-- Replay the same calls through an unwrapped collection. -/
def runUnwrapped (st : List JVal) : List (List JVal) → List JVal × List Nat
  | [] => (st, [])
  | args :: rest =>
    match arrayPushOrig st args with
    | (st1, ret) =>
      match runUnwrapped st1 rest with
      | (fin, rets) => (fin, ret :: rets)

/-! ## Wrapping a collection (page-script.js lines 163-203) -/

/-- The observed collection: entries, the double-wrap marker
(__dataLayerDebuggerIntercepted) and whether its push slot currently
holds the interceptor. -/
structure JSArray where
  entries : List JVal
  intercepted : Bool
  pushWrapped : Bool

/-- The DATALAYER_PRE_HOOK_SNAPSHOT payload (page-script.js lines 168-181);
the timestamp is environmental and left out. -/
structure SnapshotEvent where
  objectName : String
  entries : List Json

/-- capturePreHookEntries (page-script.js lines 163-184): emits nothing
for an empty collection, otherwise one snapshot of deep-copied entries. -/
def capturePreHookEntries (objectName : String) (a : JSArray) : Option SnapshotEvent :=
  if a.entries.length = 0 then none
  else some ⟨objectName, a.entries.map cloneJV⟩

/-- interceptArray (page-script.js lines 189-203) on an actual array:
capture the pre-hook snapshot, replace push with the interceptor and
set the marker.  The non-array early return of the source is encoded at
the call sites, which all test Array.isArray first. -/
def interceptArray (objectName : String) (a : JSArray) : JSArray × Option SnapshotEvent :=
  ({ a with intercepted := true, pushWrapped := true },
   capturePreHookEntries objectName a)

/-! ## The guarded global binding (page-script.js lines 209-253) -/

/-- A value the global binding may hold.  Numbers are modelled by Int
(NaN, which is also falsy, is not represented), objOther stands for any
truthy non-array object. -/
inductive WinVal where
  | undef
  | nul
  | boolv (b : Bool)
  | num (n : Int)
  | str (s : String)
  | arr (a : JSArray)
  | objOther

/-- JavaScript truthiness of a binding value. -/
def truthy : WinVal → Bool
  | .undef => false
  | .nul => false
  | .boolv b => b
  | .num n => n != 0
  | .str s => s != ""
  | .arr _ => true
  | .objOther => true

/-- Array.isArray. -/
def isArrW : WinVal → Bool
  | .arr _ => true
  | _ => false

/-- The setter installed by Object.defineProperty (page-script.js lines
228-240): an array that is not yet marked intercepted is wrapped in
place before being stored; every other value is stored as given.
Returns the new internalValue and the snapshot possibly emitted. -/
def guardSet (objectName : String) (newValue : WinVal) : WinVal × Option SnapshotEvent :=
  match newValue with
  | .arr a =>
    if a.intercepted then (.arr a, none)
    else
      match interceptArray objectName a with
      | (a1, ev) => (.arr a1, ev)
  | v => (v, none)

/-- The getter: returns the stored internalValue (page-script.js lines 225-227). -/
def guardGet (internalValue : WinVal) : WinVal := internalValue

/-- Strip the wrap artifacts from a value, for stating that an
assignment is readable back modulo the marker and the wrapped push. -/
def eraseMarks : WinVal → WinVal
  | .arr a => .arr { a with intercepted := false, pushWrapped := false }
  | v => v

/-- setupInterception (page-script.js lines 209-253), successful
defineProperty path: an unmarked array is wrapped in place; a falsy
binding is replaced by a fresh empty wrapped array; a truthy non-array
is left untouched.  Returns the initial internalValue and the snapshot
possibly emitted. -/
def setupInterception (objectName : String) (initial : WinVal) :
    WinVal × Option SnapshotEvent :=
  match initial with
  | .arr a =>
    if a.intercepted then (.arr a, none)
    else
      match interceptArray objectName a with
      | (a1, ev) => (.arr a1, ev)
  | v =>
    if truthy v then (v, none)
    else
      match interceptArray objectName ⟨[], false, false⟩ with
      | (a1, ev) => (.arr a1, ev)

/-- Fold a sequence of assignments through the reassignment setter,
starting from a current internalValue. -/
def reassignAll (objectName : String) (vs : List WinVal) (init : WinVal) : WinVal :=
  vs.foldl (fun _cur v => (guardSet objectName v).1) init

/-- A push call on the currently bound value: appends to an array and
emits the intercepted-push payload exactly when the push slot holds the
interceptor.  A push on a non-array throws in JavaScript; that case is
modelled as an unused identity. -/
def pushCurrent (objectName stackText : String) (v : WinVal) (args : List JVal) :
    WinVal × Nat × Option PushEvent :=
  match v with
  | .arr a =>
    (.arr { a with entries := a.entries ++ args },
     a.entries.length + args.length,
     if a.pushWrapped then some (mkPushPayload objectName stackText args) else none)
  | v => (v, 0, none)

/-! ## The late-creation poll: monitorLateInitialization
(page-script.js lines 259-270) -/

/-- The schedule set up by monitorLateInitialization: setInterval with a
100 ms period, cleared by a setTimeout after 10000 ms. -/
structure PollSchedule where
  periodMs : Nat
  stopAfterMs : Nat

def monitorLateInitialization : PollSchedule := ⟨100, 10000⟩

/-- Whether a poll tick fires at absolute time t (ms after setup).  The
source offers no cancellation other than the stop timeout: the
predicate does not depend on the interception state in any way. -/
def pollFires (ps : PollSchedule) (t : Nat) : Bool :=
  decide (0 < t ∧ t % ps.periodMs = 0 ∧ t < ps.stopAfterMs)

/-- The body of one poll tick (page-script.js lines 262-265): re-wraps
an array that lost its interception, otherwise does nothing. -/
def pollTick (objectName : String) (v : WinVal) : WinVal × Option SnapshotEvent :=
  match v with
  | .arr a =>
    if a.intercepted then (.arr a, none)
    else
      match interceptArray objectName a with
      | (a1, ev) => (.arr a1, ev)
  | v => (v, none)

/-- The cancellation property claimed of the poll: once the collection
is confirmed wrapped at time confirmedAtMs, no further polling work
occurs. -/
def noPollingAfterConfirmation (confirmedAtMs : Nat) : Prop :=
  ∀ t, pollFires monitorLateInitialization t = true → t ≤ confirmedAtMs

/-! ## The message relays -/

/-- The type filter shared by both relays, written in the source as a
disjunction of three equality tests on the message type. -/
def isObservationType (t : String) : Bool :=
  t == "DATALAYER_PUSH_INTERCEPTED" ||
  t == "DATALAYER_PRE_HOOK_SNAPSHOT" ||
  t == "DATALAYER_DEBUGGER_INITIALIZED"

/-- Environment visible to the content-script relay: whether the
extension context is still valid (isExtensionContextValid) and whether
chrome.runtime.sendMessage is present. -/
structure RelayEnv where
  contextValid : Bool
  sendMessageAvailable : Bool

/-- The content-script relay handler (unnamed part 000, setupMessageRelay,
lines 70-114): whether a window message event is forwarded to the
extension runtime.  The type field of the event data is an Option to
model an absent property; the source first tests its truthiness, then
its membership among the three types, then the extension context, then
the availability of sendMessage. -/
def setupMessageRelayForwards (env : RelayEnv) (sourceIsWindow : Bool)
    (msgType : Option String) : Bool :=
  if !sourceIsWindow then false
  else
    match msgType with
    | none => false
    | some t =>
      if t = "" then false
      else if isObservationType t then
        if !env.contextValid then false
        else if !env.sendMessageAvailable then false
        else true
      else false

/-- Outcome of the background onMessage listener for one incoming
message: one delivery-success flag per DevTools connection attempted in
order, and whether sendResponse acknowledged the reporter. -/
structure IngestOutcome where
  attempts : List Bool
  acked : Bool

/-- The per-connection forwarding loop (unnamed part 003, lines 66-74):
each port.postMessage is attempted inside its own try/catch, so a
failing port never stops delivery to the later ones. -/
def deliverToAll : List (Except String Unit) → List Bool
  | [] => []
  | r :: rest =>
    (match r with
     | .ok _ => true
     | .error _ => false) :: deliverToAll rest

/-- The background onMessage listener (unnamed part 003, lines 56-82):
for a tab-originated message of an observation type, fan the message
out to the connections registered for the tab (none, if the map has no
entry or the list is empty) and always call sendResponse. -/
def backgroundOnMessage (senderHasTab : Bool) (msgType : String)
    (conns : Option (List (Except String Unit))) : IngestOutcome :=
  if senderHasTab && isObservationType msgType then
    { attempts :=
        match conns with
        | some cs => if 0 < cs.length then deliverToAll cs else []
        | none => []
      acked := true }
  else { attempts := [], acked := false }

/-! ## Statements of claims that the code refutes, and sample inputs -/

/-- Claim C2, second sentence: for every emission behaviour, including a
throwing one, the wrapped push still delivers the original push result. -/
def claimDeliveryDespiteThrow : Prop :=
  ∀ (emit : PushEvent → Except String Unit) (objectName stackText : String)
    (st args : List JVal),
    interceptorCallE emit objectName stackText st args =
      .ok (arrayPushOrig st args)

/-- Claim C6, second sentence: the classifier records the very first
parseable frame as viaIntermediate exactly when that frame differs from
the chosen primary origin. -/
def claimViaIntermediateIffDiffers : Prop :=
  ∀ (stack : String) (r : StackInfo), parseStackTrace stack = some r →
    (r.immediateCaller ≠ none ↔
      ∃ f, firstParseableFrame (stackFrames stack) = some f ∧
        ¬(f.file = r.file ∧ f.line = r.line ∧ f.column = r.column ∧
          f.stackLineIndex = r.stackLineIndex))

/-- Claim C10: a window message is forwarded if and only if its source is
the same window and its type is one of the three observation types. -/
def claimRelayForwardIff : Prop :=
  ∀ (env : RelayEnv) (sourceIsWindow : Bool) (msgType : Option String),
    setupMessageRelayForwards env sourceIsWindow msgType = true ↔
      (sourceIsWindow = true ∧
       ∃ t, msgType = some t ∧ isObservationType t = true)

/-- A stack whose only parseable frame is an extension frame. -/
def sampleExtOnlyStack : String :=
  "Error\nwrapTrace\n    at chrome-extension://abc/bg.js:5:7"

/-- A stack with an extension frame followed by an ordinary page frame. -/
def sampleMixedStack : String :=
  "Error\nwrapTrace\n    at chrome-extension://abc/inject.js:1:2\n    at https://shop.example/app.js:3:4"

/-- A non-empty stack with no frame-shaped line at all. -/
def sampleUnparseableStack : String := "hello\nworld\nfoo"

/-! ## Helper lemmas -/

@[simp]
theorem orElseO_none_left {α : Type} (b : Option α) : orElseO none b = b := rfl

@[simp]
theorem orElseO_some_left {α : Type} (x : α) (b : Option α) :
    orElseO (some x) b = some x := rfl

theorem orElseO_absorb {α : Type} (imm : Option α) (x : α) (y : Option α) :
    orElseO (orElseO imm (some x)) y = orElseO imm (some x) := by
  cases imm <;> rfl

theorem deliverToAll_length (l : List (Except String Unit)) :
    (deliverToAll l).length = l.length := by
  induction l with
  | nil => rfl
  | cons r rest ih => simp [deliverToAll, ih]

theorem scanFrames_fst (ps : List (Nat × String)) :
    ∀ (imm : Option FrameInfo) (b : Bool),
      (scanFrames ps imm b).1 = orElseO imm (firstParseableFrame ps) := by
  induction ps with
  | nil => intro imm b; cases imm <;> rfl
  | cons p rest ih =>
    intro imm b
    obtain ⟨i, l⟩ := p
    simp only [scanFrames, firstParseableFrame]
    cases hf : frameOfLine i l with
    | none => exact ih imm b
    | some fr =>
      cases he : isExtensionUrl fr.file with
      | true => simp only [he, if_true, ih, orElseO_absorb]
      | false => simp [he]

theorem scanFrames_page (ps : List (Nat × String)) :
    ∀ (imm : Option FrameInfo) (b : Bool),
      (scanFrames ps imm b).2.1 = firstOrdinaryFrame ps := by
  induction ps with
  | nil => intro imm b; rfl
  | cons p rest ih =>
    intro imm b
    obtain ⟨i, l⟩ := p
    simp only [scanFrames, firstOrdinaryFrame]
    cases hf : frameOfLine i l with
    | none => exact ih imm b
    | some fr =>
      cases he : isExtensionUrl fr.file with
      | true => simp only [he, if_true, ih]
      | false => simp [he]

theorem firstParseableFrame_of_unparseable (ps : List (Nat × String))
    (h : ∀ p ∈ ps, frameOfLine p.1 p.2 = none) :
    firstParseableFrame ps = none := by
  induction ps with
  | nil => rfl
  | cons p rest ih =>
    obtain ⟨i, l⟩ := p
    have hp := h (i, l) (List.mem_cons_self _ _)
    simp only [firstParseableFrame, hp]
    exact ih fun q hq => h q (List.mem_cons_of_mem _ hq)

theorem firstOrdinaryFrame_of_unparseable (ps : List (Nat × String))
    (h : ∀ p ∈ ps, frameOfLine p.1 p.2 = none) :
    firstOrdinaryFrame ps = none := by
  induction ps with
  | nil => rfl
  | cons p rest ih =>
    obtain ⟨i, l⟩ := p
    have hp := h (i, l) (List.mem_cons_self _ _)
    simp only [firstOrdinaryFrame, hp]
    exact ih fun q hq => h q (List.mem_cons_of_mem _ hq)

theorem firstParseable_ext_of_no_ordinary (ps : List (Nat × String)) :
    firstOrdinaryFrame ps = none →
    ∀ f, firstParseableFrame ps = some f → isExtensionUrl f.file = true := by
  induction ps with
  | nil => intro _ f hf; cases hf
  | cons p rest ih =>
    obtain ⟨i, l⟩ := p
    intro ho f hf
    cases hfl : frameOfLine i l with
    | none =>
      rw [firstOrdinaryFrame, hfl] at ho
      rw [firstParseableFrame, hfl] at hf
      exact ih ho f hf
    | some fr =>
      simp only [firstOrdinaryFrame, hfl] at ho
      simp only [firstParseableFrame, hfl] at hf
      cases he : isExtensionUrl fr.file with
      | false => rw [he] at ho; simp at ho
      | true =>
        injection hf with hf
        exact hf ▸ he

theorem isObservationType_ne_empty (t : String) (h : isObservationType t = true) :
    t ≠ "" := by
  intro he
  subst he
  exact absurd h (by decide)

/-! ## Claim theorems -/

/-- Claim C1 (confirmed): every call through the wrapped push invokes the
original push on the original arguments and returns its result
unchanged, so replaying any sequence of append calls through the
wrapper leaves exactly the contents and return values an unwrapped
collection would produce. -/
theorem c1_push_transparency (objectName : String) (st : List JVal)
    (calls : List (String × List JVal)) :
    (∀ (stackText : String) (st0 args : List JVal),
      (interceptorCall objectName stackText st0 args).1 = arrayPushOrig st0 args) ∧
    (runWrapped objectName st calls).1 = (runUnwrapped st (calls.map Prod.snd)).1 ∧
    (runWrapped objectName st calls).2.1 = (runUnwrapped st (calls.map Prod.snd)).2 := by
  refine ⟨fun _ _ _ => rfl, ?_⟩
  induction calls generalizing st with
  | nil => exact ⟨rfl, rfl⟩
  | cons c rest ih =>
    obtain ⟨stackText, args⟩ := c
    obtain ⟨ih1, ih2⟩ := ih (st ++ args)
    simp only [runWrapped, runUnwrapped, interceptorCall, arrayPushOrig, List.map_cons]
    rcases hw : runWrapped objectName (st ++ args) rest with ⟨fin, rets, evs⟩
    rcases hu : runUnwrapped (st ++ args) (List.map Prod.snd rest) with ⟨fin2, rets2⟩
    rw [hw, hu] at ih1 ih2
    simp only at ih1 ih2
    exact ⟨ih1, by rw [ih2]⟩

/-- Claim C2, counterexample: the wrapper body contains no handler
around event emission, so when emission throws, the exception reaches
the caller and the original push result is not delivered; the claimed
universal delivery is false for a throwing emitter. -/
theorem c2_counterexample : ¬ claimDeliveryDespiteThrow := by
  intro hcl
  exact Except.noConfusion
    (hcl (fun _ => .error "postMessage failure") "dataLayer" "Error\n" [] [])

/-- Claim C2 (amended): exceptions during argument copying are caught
per argument and replaced by the string fallback, and whenever event
emission itself does not throw, the original push result is delivered
to the caller unchanged.  An exception thrown by emission, however,
propagates (see the counterexample). -/
theorem c2_emission_amended (emit : PushEvent → Except String Unit)
    (objectName stackText : String) (st args : List JVal)
    (h : ∀ p, emit p = .ok ()) :
    interceptorCallE emit objectName stackText st args =
      .ok (arrayPushOrig st args) ∧
    (mkPushPayload objectName stackText args).arguments = args.map cloneJV := by
  refine ⟨?_, rfl⟩
  simp only [interceptorCallE, h]

/-- Witness for C2 amended at a concrete non-serializable argument. -/
theorem c2_emission_witness :
    interceptorCallE (fun _ => Except.ok ()) "dataLayer" "Error\nwrap"
      [JVal.ser Json.null] [JVal.nonser "[object Cyclic]"] =
      .ok (arrayPushOrig [JVal.ser Json.null] [JVal.nonser "[object Cyclic]"]) ∧
    (mkPushPayload "dataLayer" "Error\nwrap" [JVal.nonser "[object Cyclic]"]).arguments =
      [JVal.nonser "[object Cyclic]"].map cloneJV :=
  c2_emission_amended (fun _ => Except.ok ()) "dataLayer" "Error\nwrap"
    [JVal.ser Json.null] [JVal.nonser "[object Cyclic]"] (fun _ => rfl)

/-- Claim C4 (confirmed): wrapping a collection with N pre-existing
entries emits exactly one pre-hook snapshot holding exactly N
deep-copied entries, and no snapshot when N = 0. -/
theorem c4_prehook_snapshot (objectName : String) (a : JSArray) :
    (interceptArray objectName a).2 =
      (if a.entries.length = 0 then none
       else some ⟨objectName, a.entries.map cloneJV⟩) ∧
    (a.entries.map cloneJV).length = a.entries.length := by
  exact ⟨rfl, by simp⟩

/-- Claim C5, counterexample: on the empty string the classifier
returns null (the falsy-input early return), not the claimed origin
record with file unknown, line and column 0 and the text preserved. -/
theorem c5_counterexample : parseStackTrace "" = none := rfl

/-- Claim C5 (amended): the classifier is a total function (it cannot
throw), and on every NON-empty input in which no scanned line parses as
a frame it returns the sentinel origin: file unknown, line and column
0, the original text verbatim.  The empty string instead returns null
(see the counterexample). -/
theorem c5_classifier_fallback_amended (stack : String) (h : stack ≠ "")
    (hnone : ∀ p ∈ stackFrames stack, frameOfLine p.1 p.2 = none) :
    parseStackTrace stack = some ⟨"unknown", 0, 0, 2, stack, false, none⟩ := by
  have h1 := scanFrames_fst (stackFrames stack) none false
  have h2 := scanFrames_page (stackFrames stack) none false
  rw [firstParseableFrame_of_unparseable _ hnone] at h1
  rw [firstOrdinaryFrame_of_unparseable _ hnone] at h2
  unfold parseStackTrace
  rw [if_neg h]
  rcases hsc : scanFrames (stackFrames stack) none false with ⟨imm, page, hasExt⟩
  rw [hsc] at h1 h2
  simp only [orElseO_none_left] at h1 h2
  subst h1
  subst h2
  rfl

/-- Witness for C5 amended on a concrete unparseable stack. -/
theorem c5_classifier_fallback_witness :
    sampleUnparseableStack ≠ "" ∧
    parseStackTrace sampleUnparseableStack =
      some ⟨"unknown", 0, 0, 2, sampleUnparseableStack, false, none⟩ :=
  ⟨by decide, c5_classifier_fallback_amended _ (by decide) (by decide)⟩

/-- Claim C6, counterexample: on a stack whose only parseable frame is
an extension frame, that frame is the chosen primary origin AND is
still recorded as viaIntermediate, although it does not differ from the
primary origin; the claimed exactly-when condition is false. -/
theorem c6_counterexample : ¬ claimViaIntermediateIffDiffers := by
  intro hcl
  have hparse : parseStackTrace sampleExtOnlyStack =
      some ⟨"chrome-extension://abc/bg.js", 5, 7, 2, sampleExtOnlyStack, true,
            some ("chrome-extension://abc/bg.js", 5, 7)⟩ := by decide
  have hfp : firstParseableFrame (stackFrames sampleExtOnlyStack) =
      some (⟨"chrome-extension://abc/bg.js", 5, 7, 2⟩ : FrameInfo) := by decide
  obtain ⟨f, hf, hdiff⟩ := (hcl _ _ hparse).1 (by simp)
  rw [hfp] at hf
  injection hf with hf
  subst hf
  exact hdiff ⟨rfl, rfl, rfl, rfl⟩

/-- Claim C6 (amended): the classifier scans lines from index 2 and
chooses as primary origin the first ordinary parseable frame, falling
back to the first parseable frame, which in the fallback case is
necessarily an instrumentation frame; with no parseable frame at all it
returns the unknown sentinel.  viaIntermediate records the first
parseable frame exactly when that frame is NOT the first ordinary
frame; in particular, when no ordinary frame exists, the first
instrumentation frame is recorded both as the primary origin and as
viaIntermediate. -/
theorem c6_classifier_selection_amended (stack : String) (h : stack ≠ "") :
    ∃ r, parseStackTrace stack = some r ∧
      (∀ c, orElseO (firstOrdinaryFrame (stackFrames stack))
          (firstParseableFrame (stackFrames stack)) = some c →
        r.file = c.file ∧ r.line = c.line ∧ r.column = c.column ∧
        r.stackLineIndex = c.stackLineIndex) ∧
      (orElseO (firstOrdinaryFrame (stackFrames stack))
          (firstParseableFrame (stackFrames stack)) = none →
        r.file = "unknown" ∧ r.line = 0 ∧ r.column = 0) ∧
      r.immediateCaller =
        (if firstParseableFrame (stackFrames stack) =
            firstOrdinaryFrame (stackFrames stack) then none
         else (firstParseableFrame (stackFrames stack)).map
           fun fr => (fr.file, fr.line, fr.column)) ∧
      (firstOrdinaryFrame (stackFrames stack) = none →
        ∀ f, firstParseableFrame (stackFrames stack) = some f →
          isExtensionUrl f.file = true) := by
  have h1 := scanFrames_fst (stackFrames stack) none false
  have h2 := scanFrames_page (stackFrames stack) none false
  unfold parseStackTrace
  rw [if_neg h]
  rcases hsc : scanFrames (stackFrames stack) none false with ⟨imm, page, hasExt⟩
  rw [hsc] at h1 h2
  simp only [orElseO_none_left] at h1 h2
  subst h1
  subst h2
  dsimp only
  cases ho : orElseO (firstOrdinaryFrame (stackFrames stack))
      (firstParseableFrame (stackFrames stack)) with
  | none =>
    have hfo : firstOrdinaryFrame (stackFrames stack) = none := by
      cases hx : firstOrdinaryFrame (stackFrames stack) with
      | none => rfl
      | some c => rw [hx] at ho; cases ho
    have hfp : firstParseableFrame (stackFrames stack) = none := by
      rw [hfo, orElseO_none_left] at ho
      exact ho
    refine ⟨⟨"unknown", 0, 0, 2, stack, false, none⟩, rfl, ?_, ?_, ?_, ?_⟩
    · intro c hc; cases hc
    · intro _; exact ⟨rfl, rfl, rfl⟩
    · rw [hfo, hfp]; simp
    · exact firstParseable_ext_of_no_ordinary _
  | some c0 =>
    refine ⟨_, rfl, ?_, ?_, rfl, ?_⟩
    · intro c hc
      injection hc with hc
      subst hc
      exact ⟨rfl, rfl, rfl, rfl⟩
    · intro hc; cases hc
    · exact firstParseable_ext_of_no_ordinary _

/-- Witness for C6 amended: an extension frame followed by a page
frame; the page frame becomes the primary origin and the extension
frame is recorded as viaIntermediate. -/
theorem c6_classifier_selection_witness :
    sampleMixedStack ≠ "" ∧
    (∃ r, parseStackTrace sampleMixedStack = some r ∧
      (∀ c, orElseO (firstOrdinaryFrame (stackFrames sampleMixedStack))
          (firstParseableFrame (stackFrames sampleMixedStack)) = some c →
        r.file = c.file ∧ r.line = c.line ∧ r.column = c.column ∧
        r.stackLineIndex = c.stackLineIndex) ∧
      (orElseO (firstOrdinaryFrame (stackFrames sampleMixedStack))
          (firstParseableFrame (stackFrames sampleMixedStack)) = none →
        r.file = "unknown" ∧ r.line = 0 ∧ r.column = 0) ∧
      r.immediateCaller =
        (if firstParseableFrame (stackFrames sampleMixedStack) =
            firstOrdinaryFrame (stackFrames sampleMixedStack) then none
         else (firstParseableFrame (stackFrames sampleMixedStack)).map
           fun fr => (fr.file, fr.line, fr.column)) ∧
      (firstOrdinaryFrame (stackFrames sampleMixedStack) = none →
        ∀ f, firstParseableFrame (stackFrames sampleMixedStack) = some f →
          isExtensionUrl f.file = true)) :=
  ⟨by decide, c6_classifier_selection_amended sampleMixedStack (by decide)⟩

/-- Claim C3 (confirmed): the reassignment guard wraps a not yet
intercepted array before it becomes the active value, stores non-array
values unchanged, makes every assignment readable back modulo the
marker and the wrapped push, and after any number of reassignments
ending in a fresh array a subsequent push on the current value is
observed. -/
theorem c3_reassignment_guard (objectName : String) :
    (∀ a : JSArray, a.intercepted = false →
      guardSet objectName (.arr a) =
        (.arr { a with intercepted := true, pushWrapped := true },
         capturePreHookEntries objectName a)) ∧
    (∀ a : JSArray, a.intercepted = true →
      guardSet objectName (.arr a) = (.arr a, none)) ∧
    (∀ v, isArrW v = false → guardSet objectName v = (v, none)) ∧
    (∀ v, eraseMarks (guardGet (guardSet objectName v).1) = eraseMarks v) ∧
    (∀ (vs : List WinVal) (init : WinVal) (a : JSArray), a.intercepted = false →
      ∀ (stackText : String) (args : List JVal),
        ((pushCurrent objectName stackText
            (guardGet (reassignAll objectName (vs ++ [WinVal.arr a]) init))
            args).2.2).isSome = true) := by
  refine ⟨?_, ?_, ?_, ?_, ?_⟩
  · intro a ha; simp [guardSet, ha, interceptArray]
  · intro a ha; simp [guardSet, ha]
  · intro v hv; cases v <;> simp_all [guardSet, isArrW]
  · intro v
    cases v <;> simp [guardSet, guardGet, eraseMarks, interceptArray]
    case arr a =>
      cases ha : a.intercepted <;> simp [ha]
  · intro vs init a ha stackText args
    simp [reassignAll, List.foldl_append, guardSet, ha, interceptArray,
      guardGet, pushCurrent]

/-- Witness for C3 at concrete values: a fresh one-entry array is
wrapped by the setter, and a push after a reassignment through the
guard is observed. -/
theorem c3_reassignment_guard_witness :
    guardSet "dataLayer" (.arr ⟨[JVal.ser Json.null], false, false⟩) =
      (.arr { entries := [JVal.ser Json.null], intercepted := true,
              pushWrapped := true },
       capturePreHookEntries "dataLayer" ⟨[JVal.ser Json.null], false, false⟩) ∧
    ((pushCurrent "dataLayer" "Error\nwrap"
        (guardGet (reassignAll "dataLayer" ([] ++ [WinVal.arr ⟨[], false, false⟩])
          WinVal.nul))
        [JVal.ser Json.null]).2.2).isSome = true :=
  ⟨(c3_reassignment_guard "dataLayer").1 ⟨[JVal.ser Json.null], false, false⟩ rfl,
   (c3_reassignment_guard "dataLayer").2.2.2.2 [] WinVal.nul
     ⟨[], false, false⟩ rfl "Error\nwrap" [JVal.ser Json.null]⟩

/-- Claim C7, counterexample: a poll tick still fires at t = 100 ms, so
if the collection is confirmed wrapped at t = 0 (wrapped during setup)
polling work nevertheless continues; the poll offers no early
cancellation, only the fixed stop timeout. -/
theorem c7_counterexample : ¬ noPollingAfterConfirmation 0 := by
  intro hcl
  exact absurd (hcl 100 (by decide)) (by decide)

/-- Claim C7 (amended): the poll is bounded — every tick fires strictly
before the 10000 ms stop timeout, so it never runs indefinitely — but
it is NOT cancellable early: ticks keep firing on the fixed schedule
regardless of the interception state (the schedule fires at 100 ms, for
instance), and a tick on an already intercepted collection merely does
nothing. -/
theorem c7_poll_bounded_amended :
    (∀ t, pollFires monitorLateInitialization t = true →
      t < monitorLateInitialization.stopAfterMs) ∧
    (∀ (objectName : String) (a : JSArray), a.intercepted = true →
      pollTick objectName (.arr a) = (.arr a, none)) ∧
    pollFires monitorLateInitialization 100 = true := by
  refine ⟨?_, ?_, by decide⟩
  · intro t ht
    exact (of_decide_eq_true ht).2.2
  · intro objectName a ha
    simp [pollTick, ha]

/-- Witness for C7 amended: a concrete late tick below the bound and a
no-op tick on an intercepted collection. -/
theorem c7_poll_bounded_witness :
    pollFires monitorLateInitialization 9900 = true ∧
    9900 < monitorLateInitialization.stopAfterMs ∧
    pollTick "dataLayer" (.arr ⟨[], true, true⟩) = (.arr ⟨[], true, true⟩, none) :=
  ⟨by decide, c7_poll_bounded_amended.1 9900 (by decide),
   c7_poll_bounded_amended.2.1 "dataLayer" ⟨[], true, true⟩ rfl⟩

/-- Claim C8 (confirmed): for every tab-originated observation message,
the background listener attempts delivery to every registered DevTools
connection in order — a failing port is caught by its own handler and
never aborts the remaining deliveries — and the reporter is always
acknowledged, with zero, one or many connections registered. -/
theorem c8_ingest_ack (senderHasTab : Bool) (msgType : String)
    (conns : Option (List (Except String Unit)))
    (htab : senderHasTab = true) (hty : isObservationType msgType = true) :
    (backgroundOnMessage senderHasTab msgType conns).acked = true ∧
    (backgroundOnMessage senderHasTab msgType conns).attempts =
      deliverToAll (conns.getD []) ∧
    (backgroundOnMessage senderHasTab msgType conns).attempts.length =
      (conns.getD []).length := by
  subst htab
  have h2 : (backgroundOnMessage true msgType conns).attempts =
      deliverToAll (conns.getD []) := by
    cases conns with
    | none => simp [backgroundOnMessage, hty, deliverToAll]
    | some cs =>
      cases cs with
      | nil => simp [backgroundOnMessage, hty, deliverToAll]
      | cons c rest => simp [backgroundOnMessage, hty]
  refine ⟨by simp [backgroundOnMessage, hty], h2, ?_⟩
  rw [h2, deliverToAll_length]

/-- Witness for C8: two connections, the first of which fails; both are
attempted and the reporter is acknowledged. -/
theorem c8_ingest_ack_witness :
    isObservationType "DATALAYER_PUSH_INTERCEPTED" = true ∧
    (backgroundOnMessage true "DATALAYER_PUSH_INTERCEPTED"
        (some [Except.error "port disconnected", Except.ok ()])).acked = true ∧
    (backgroundOnMessage true "DATALAYER_PUSH_INTERCEPTED"
        (some [Except.error "port disconnected", Except.ok ()])).attempts =
      deliverToAll ((some [Except.error "port disconnected",
        Except.ok ()]).getD []) ∧
    (backgroundOnMessage true "DATALAYER_PUSH_INTERCEPTED"
        (some [Except.error "port disconnected", Except.ok ()])).attempts.length =
      ((some [Except.error "port disconnected", Except.ok ()]).getD
        ([] : List (Except String Unit))).length :=
  ⟨by decide,
   c8_ingest_ack true "DATALAYER_PUSH_INTERCEPTED"
     (some [Except.error "port disconnected", Except.ok ()]) rfl (by decide)⟩

/-- Claim C9, counterexample: the binding holds the number 0 — a value
that exists and is not array-like — yet initialization does not leave
it untouched: the falsy-value branch replaces it with a fresh empty
wrapped array. -/
theorem c9_counterexample :
    isArrW (WinVal.num 0) = false ∧
    setupInterception "dataLayer" (WinVal.num 0) =
      (WinVal.arr ⟨[], true, true⟩, none) ∧
    (setupInterception "dataLayer" (WinVal.num 0)).1 ≠ WinVal.num 0 :=
  ⟨rfl, rfl, fun hcon => WinVal.noConfusion hcon⟩

/-- Claim C9 (amended): a TRUTHY non-array value bound to the observed
name is left untouched by initialization — reading the binding back
yields the very value that was there — while a falsy value (0, empty
string, false, null, undefined) is treated as absent and replaced by a
fresh wrapped empty array (see the counterexample). -/
theorem c9_untouched_amended (objectName : String) (v : WinVal)
    (htr : truthy v = true) (harr : isArrW v = false) :
    setupInterception objectName v = (v, none) ∧
    guardGet (setupInterception objectName v).1 = v := by
  cases v <;> simp_all [setupInterception, truthy, isArrW, guardGet]

/-- Witness for C9 amended: a truthy string value survives
initialization untouched. -/
theorem c9_untouched_witness :
    truthy (WinVal.str "gtm") = true ∧
    setupInterception "dataLayer" (WinVal.str "gtm") = (WinVal.str "gtm", none) ∧
    guardGet (setupInterception "dataLayer" (WinVal.str "gtm")).1 =
      WinVal.str "gtm" :=
  ⟨by decide,
   (c9_untouched_amended "dataLayer" (WinVal.str "gtm") (by decide) rfl).1,
   (c9_untouched_amended "dataLayer" (WinVal.str "gtm") (by decide) rfl).2⟩

/-- Claim C10, counterexample: a same-window message of an observation
type is NOT forwarded when the extension context has been invalidated,
so type and source alone do not characterise forwarding. -/
theorem c10_counterexample : ¬ claimRelayForwardIff := by
  intro hcl
  have h := (hcl ⟨false, true⟩ true (some "DATALAYER_PUSH_INTERCEPTED")).2
    ⟨rfl, "DATALAYER_PUSH_INTERCEPTED", rfl, by decide⟩
  exact absurd h (by decide)

/-- Claim C10 (amended): the content-script relay forwards a window
message to the extension runtime if and only if its source is the same
window, the extension context is valid, sendMessage is available, and
the message type is one of the three observation types; every other
window message produces no forwarding. -/
theorem c10_relay_filter_amended (env : RelayEnv) (sourceIsWindow : Bool)
    (msgType : Option String) :
    setupMessageRelayForwards env sourceIsWindow msgType = true ↔
      (sourceIsWindow = true ∧ env.contextValid = true ∧
       env.sendMessageAvailable = true ∧
       ∃ t, msgType = some t ∧ isObservationType t = true) := by
  obtain ⟨cv, sma⟩ := env
  cases sourceIsWindow with
  | false => simp [setupMessageRelayForwards]
  | true =>
    cases msgType with
    | none => simp [setupMessageRelayForwards]
    | some t =>
      by_cases ht : t = ""
      · subst ht
        constructor
        · intro hfwd; cases hfwd
        · rintro ⟨-, -, -, t1, ht1, hobs⟩
          injection ht1 with ht1
          subst ht1
          exact absurd hobs (by decide)
      · by_cases hobs : isObservationType t = true
        · cases cv <;> cases sma <;>
            simp [setupMessageRelayForwards, ht, hobs]
        · constructor
          · intro hfwd
            rw [setupMessageRelayForwards] at hfwd
            simp only [Bool.not_true, if_false, Bool.false_eq_true] at hfwd
            rw [if_neg ht] at hfwd
            rw [if_neg (by simpa using hobs)] at hfwd
            cases hfwd
          · rintro ⟨-, -, -, t1, ht1, hobs1⟩
            injection ht1 with ht1
            subst ht1
            exact absurd hobs1 hobs

end Dld
